import Mathlib

/-!
Verification of the aged-care document wiki's access-control and
document-workflow model against its implementation.

The definitions below are a shallow embedding of the TypeScript source:

* `src/routes/public.tsx` — auth helpers (`createSession`, `getSession`,
  `updateSessionActivity`, `getUserFromSession`, `getUserPermissions`,
  `hasPermission`), document utilities (`generateSlug`, `ensureUniqueSlug`,
  `searchDocuments`).
* `src/index.tsx` — the `POST /api/auth/login` handler.

Database tables are modelled as Lean lists of row structures; SQL timestamps
are modelled as `Nat` epoch-millisecond instants (sessions) or ISO-format
`String`s compared lexicographically (document dates), matching SQLite's
string comparison of DATETIME values.  The session-expiry check models the
byte-wise TEXT comparison the program actually performs between the
ISO-8601 stored value and `datetime('now')` (see `getSession`), not a
chronological comparison of the instants.  Search `limit`/`offset` are
`Int`s because the TS fields are JS numbers and negative values are
reachable from the query string; SQLite treats a negative `LIMIT` as
unbounded and a negative `OFFSET` as 0.  Columns never read by the modelled
operations are omitted from the row structures.  `bcrypt` password
verification is kept abstract as a boolean oracle parameter.
-/

namespace Wiki

/-! ### Character-level helpers (JS regex classes, ASCII range) -/

/-- ASCII model of the JS regex class `\w` (`[A-Za-z0-9_]`). -/
def isWordChar (c : Char) : Bool :=
  c == '_' || ('a' ≤ c && c ≤ 'z') || ('A' ≤ c && c ≤ 'Z') || ('0' ≤ c && c ≤ '9')

/-- ASCII model of the JS regex class `\s` (whitespace). -/
def isWsChar (c : Char) : Bool :=
  c == ' ' || c == '\t' || c == '\n' || c == '\r' || c == '\x0b' || c == '\x0c'

/-- A literal hyphen, the character class of the hyphen-run regex. -/
def isHyphenChar (c : Char) : Bool := c == '-'

/-- Replace every maximal run of characters satisfying `p` by the single
character `rep`; the list model of JS `str.replace(/cls+/g, rep)`. -/
def replaceRuns (p : Char → Bool) (rep : Char) : List Char → List Char
  | [] => []
  | c :: cs =>
    match cs with
    | [] => [if p c then rep else c]
    | c' :: _ =>
      if p c && p c' then replaceRuns p rep cs
      else (if p c then rep else c) :: replaceRuns p rep cs

/-- Strip leading and trailing whitespace; the list model of JS `String.trim`. -/
def trimChars (l : List Char) : List Char :=
  ((l.dropWhile isWsChar).reverse.dropWhile isWsChar).reverse

/-- ASCII lowercasing of a string's characters (model of JS `toLowerCase` /
SQLite `LIKE` case folding on the ASCII range). -/
def lowerChars (s : String) : List Char := s.data.map Char.toLower

/-- Is `pat` a prefix of `s`? (boolean, on character lists). -/
def isPrefixB : List Char → List Char → Bool
  | [], _ => true
  | _ :: _, [] => false
  | a :: as, b :: bs => a == b && isPrefixB as bs

/-- Is `pat` a contiguous substring of `s`? (boolean, on character lists). -/
def isInfixB (pat : List Char) : List Char → Bool
  | [] => isPrefixB pat []
  | c :: rest => isPrefixB pat (c :: rest) || isInfixB pat rest

/-- Model of the SQL predicate `col LIKE '%pat%'`: case-insensitive (ASCII)
substring containment.  `LIKE` metacharacters inside `pat` are not modelled;
the spec describes the construct as plain substring containment. -/
def likeContains (pat s : String) : Bool :=
  isInfixB (lowerChars pat) (lowerChars s)

/-- `NULL LIKE '%pat%'` is not true in SQL, so a `NULL` column never matches. -/
def optLikeContains (pat : String) : Option String → Bool
  | some s => likeContains pat s
  | none => false

/-- Equality test of a nullable integer column against a bound value
(`NULL = v` is not true in SQL). -/
def optNatEq : Option Nat → Nat → Bool
  | some x, v => x == v
  | none, _ => false

/-- JS truthiness of an optional string option: `undefined` and `""` are
falsy. -/
def truthyStr : Option String → Option String
  | some s => if s == "" then none else some s
  | none => none

/-- JS truthiness of an optional numeric option: `undefined` and `0` are
falsy. -/
def truthyNat : Option Nat → Option Nat
  | some n => if n == 0 then none else some n
  | none => none

/-! ### Data model (rows of the relational tables) -/

/-- A row of `roles`: the JSON `permissions` column is modelled in parsed
form as a list of permission strings. -/
structure Role where
  id : Nat
  name : String
  permissions : List String
deriving DecidableEq

/-- A row of the `user_roles` join table. -/
structure UserRole where
  user_id : Nat
  role_id : Nat
deriving DecidableEq

/-- The tables read by the permission-evaluation queries. -/
structure PermDb where
  roles : List Role
  user_roles : List UserRole
deriving DecidableEq

/-- A row of `users` (columns read by the modelled operations). -/
structure DbUser where
  id : Nat
  email : String
  name : String
  password_hash : String
  status : String
deriving DecidableEq

/-- A row of `sessions`; DATETIME columns are modelled as `Nat`
epoch-millisecond instants.  `expires_at` holds the instant whose
`Date.toISOString()` rendering the code stores; the comparison performed on
the rendered TEXT value is modelled in `getSession`. -/
structure Session where
  id : String
  user_id : Nat
  expires_at : Nat
  last_activity : Nat
deriving DecidableEq

/-- A row of `documents` (columns read by the modelled operations; DATETIME
and DATE columns are ISO strings compared lexicographically). -/
structure Doc where
  id : Nat
  title : String
  slug : String
  summary : Option String
  content_type : String
  status : String
  owner_id : Nat
  effective_date : String
  updated_at : String
  category_id : Nat
  business_unit_id : Option Nat
  search_content : Option String
deriving DecidableEq

/-- A row of the `document_tags` join table. -/
structure DocumentTag where
  document_id : Nat
  tag_id : Nat
deriving DecidableEq

/-! ### Permission evaluation (`getUserPermissions`, `hasPermission`) -/

/-- `getUserPermissions`: `SELECT r.permissions FROM roles r JOIN user_roles ur
ON r.id = ur.role_id WHERE ur.user_id = ?`, then the union of the parsed
JSON arrays through a JS `Set` (deduplication). -/
def getUserPermissions (db : PermDb) (userId : Nat) : List String :=
  (((db.user_roles.filter (fun ur => ur.user_id == userId)).flatMap
      (fun ur => db.roles.filter (fun r => r.id == ur.role_id))).flatMap
    (fun r => r.permissions)).dedup

/-- `hasPermission`: the wildcard `*` grants everything, otherwise membership
in the aggregated permission list. -/
def hasPermission (db : PermDb) (userId : Nat) (permission : String) : Bool :=
  let permissions := getUserPermissions db userId
  if permissions.contains "*" then true
  else permissions.contains permission

/-! ### Session lifecycle -/

/-- One hour in milliseconds, the TTL literal `60 * 60 * 1000` of
`createSession`. -/
def hourMs : Nat := 60 * 60 * 1000

/-- `createSession`: inserts a row with `expires_at = Date.now() + 1 hour`;
`last_activity` takes the schema default `CURRENT_TIMESTAMP`.  The random
session id is a parameter. -/
def createSession (sessions : List Session) (now : Nat) (sessionId : String)
    (userId : Nat) : List Session :=
  sessions ++ [{ id := sessionId, user_id := userId,
                 expires_at := now + hourMs, last_activity := now }]

/-- One UTC day in milliseconds; `t / msPerDay` is the UTC day number of
the instant `t`. -/
def msPerDay : Nat := 24 * 60 * 60 * 1000

/-- `getSession`: `SELECT * FROM sessions WHERE id = ? AND expires_at >
datetime('now')`.  The stored `expires_at` is the TEXT value written by
`Date.toISOString()`, of the form `"YYYY-MM-DDTHH:MM:SS.sssZ"`, while
`datetime('now')` is SQLite's `"YYYY-MM-DD HH:MM:SS"`; the column's NUMERIC
affinity leaves both TEXT, so the default BINARY collation compares them
byte by byte.  Both formats start with the same 10-byte zero-padded UTC
date, on which byte order coincides with day order; when the dates agree,
byte 10 decides and `'T'` (0x54) is greater than `' '` (0x20).  Hence the
SQL comparison holds iff the UTC day of the expiry instant is at least the
UTC day of the lookup instant — which is how it is written here.  (In
particular it does NOT compare the instants themselves: a session stays
retrievable for the rest of the UTC day of its expiry.) -/
def getSession (sessions : List Session) (now : Nat) (sessionId : String) :
    Option Session :=
  sessions.find? (fun s =>
    s.id == sessionId && decide (now / msPerDay ≤ s.expires_at / msPerDay))

/-- `updateSessionActivity`: `UPDATE sessions SET last_activity =
datetime('now') WHERE id = ?`. -/
def updateSessionActivity (sessions : List Session) (now : Nat)
    (sessionId : String) : List Session :=
  sessions.map (fun s => if s.id == sessionId then { s with last_activity := now } else s)

/-- `getUserFromSession`: falsy session id short-circuits; otherwise look the
session up, then the user with `status = 'active'`, and refresh
`last_activity` only when such a user was found.  Returns the found user
together with the resulting `sessions` table. -/
def getUserFromSession (users : List DbUser) (sessions : List Session)
    (now : Nat) (sessionId : String) : Option DbUser × List Session :=
  if sessionId == "" then (none, sessions)
  else
    match getSession sessions now sessionId with
    | none => (none, sessions)
    | some session =>
      match users.find? (fun u => u.id == session.user_id && u.status == "active") with
      | none => (none, sessions)
      | some user => (some user, updateSessionActivity sessions now sessionId)

/-! ### Slug assignment (`generateSlug`, `ensureUniqueSlug`) -/

/-- `generateSlug`: lower-case, strip `[^\w\s-]`, replace `\s+` runs by `-`,
collapse `-+` runs, trim. -/
def generateSlug (title : String) : String :=
  String.mk (trimChars (replaceRuns isHyphenChar '-' (replaceRuns isWsChar '-'
    ((title.data.map Char.toLower).filter
      (fun c => isWordChar c || isWsChar c || c == '-')))))

/-- The slug-derivation recipe exactly as the spec words it: lower-case,
strip non-word characters (keeping whitespace and hyphens), collapse
whitespace runs to hyphens — with no collapsing of hyphen runs and no trim.
Stated for comparison with the implementation's `generateSlug`. -/
def generateSlugDesc (title : String) : String :=
  String.mk (replaceRuns isWsChar '-'
    ((title.data.map Char.toLower).filter
      (fun c => isWordChar c || isWsChar c || c == '-')))

/-- The probe `SELECT id FROM documents WHERE slug = ?` (with the extra
clause `AND id != ?` when a `documentId` is supplied): is `slug` already
taken by another document? -/
def slugTaken (docs : List Doc) (slug : String) (documentId : Option Nat) : Bool :=
  docs.any (fun d =>
    d.slug == slug &&
      match documentId with
      | some i => d.id != i
      | none => true)

/-- The candidate sequence probed by `ensureUniqueSlug`: `baseSlug`,
`baseSlug-1`, `baseSlug-2`, … (JS decimal rendering of the counter). -/
def slugCandidate (baseSlug : String) : Nat → String
  | 0 => baseSlug
  | Nat.succ n => baseSlug ++ "-" ++ Nat.repr (Nat.succ n)

/-- Fuelled unfolding of the `while (true)` probe loop of
`ensureUniqueSlug`: at step `k` the candidate `slugCandidate baseSlug k` is
probed; on a collision the loop continues with `k + 1`. -/
def ensureUniqueSlugAux (docs : List Doc) (baseSlug : String)
    (documentId : Option Nat) : Nat → Nat → Option String
  | 0, _ => none
  | Nat.succ fuel, k =>
    if slugTaken docs (slugCandidate baseSlug k) documentId then
      ensureUniqueSlugAux docs baseSlug documentId fuel (k + 1)
    else some (slugCandidate baseSlug k)

/-- `ensureUniqueSlug`.  The source loop is unbounded; over a finite
`documents` table `docs.length + 1` probes always suffice (the candidates
are pairwise distinct, see `ensureUniqueSlug_isSome` below), so the fuelled
model is total at this fuel and faithfully computes the loop's result. -/
def ensureUniqueSlug (docs : List Doc) (baseSlug : String)
    (documentId : Option Nat) : Option String :=
  ensureUniqueSlugAux docs baseSlug documentId (docs.length + 1) 0

/-- Decimal character list of a `Nat`, written via `Nat.digits`; proven below
to agree with `Nat.repr` and used to establish that `Nat.repr` is injective
(hence that slug candidates are pairwise distinct). -/
def digitsRepr (n : Nat) : List Char :=
  if n = 0 then ['0'] else ((Nat.digits 10 n).map Nat.digitChar).reverse

/-! ### Search (`searchDocuments`) -/

/-- Lexicographic comparison of character lists by code point, the order
SQLite's default binary collation gives to `ORDER BY` on text columns. -/
def leChars : List Char → List Char → Bool
  | [], _ => true
  | _ :: _, [] => false
  | a :: as, b :: bs => if a < b then true else if b < a then false else leChars as bs

/-- Lexicographic string comparison (SQLite binary collation). -/
def leString (a b : String) : Bool := leChars a.data b.data

/-- The `sortBy` option of `SearchOptions` (`'relevance' | 'date' | 'title'`). -/
inductive SortKey where
  | relevance
  | date
  | title
deriving DecidableEq

/-- The `SearchOptions` bag of `searchDocuments`.  Optional TS fields are
`Option`s; `includeArchived` is kept as the boolean its truthiness test
observes.  `limit` and `offset` are TS `number`s that the `/api/search`
route fills from `parseInt` of query-string values, so they can be
negative: they are modelled as `Option Int`. -/
structure SearchOptions where
  query : Option String := none
  contentType : Option String := none
  category : Option Nat := none
  businessUnit : Option Nat := none
  status : Option String := none
  owner : Option Nat := none
  tags : Option (List Nat) := none
  fromDate : Option String := none
  toDate : Option String := none
  limit : Option Int := none
  offset : Option Int := none
  sortBy : Option SortKey := none
  includeArchived : Bool := false
deriving DecidableEq

/-- JS truthiness of an optional integer option: `undefined` and `0` are
falsy; negative numbers are truthy. -/
def truthyInt : Option Int → Option Int
  | some n => if n == 0 then none else some n
  | none => none

/-- The conjunction of `WHERE` clauses assembled by `searchDocuments` for one
document row (each clause guarded by the JS truthiness of its option). -/
def matchesOptions (opts : SearchOptions) (docTags : List DocumentTag) (d : Doc) : Bool :=
  (match truthyStr opts.query with
   | some q => likeContains q d.title || optLikeContains q d.summary ||
       optLikeContains q d.search_content
   | none => true) &&
  (match truthyStr opts.contentType with
   | some ct => d.content_type == ct
   | none => true) &&
  (match truthyNat opts.category with
   | some c => d.category_id == c
   | none => true) &&
  (match truthyNat opts.businessUnit with
   | some b => optNatEq d.business_unit_id b
   | none => true) &&
  (match truthyStr opts.status with
   | some st => d.status == st
   | none => if opts.includeArchived then true else d.status != "archived") &&
  (match truthyNat opts.owner with
   | some o => d.owner_id == o
   | none => true) &&
  (match truthyStr opts.fromDate with
   | some f => decide (f ≤ d.effective_date)
   | none => true) &&
  (match truthyStr opts.toDate with
   | some t => decide (d.effective_date ≤ t)
   | none => true) &&
  (match opts.tags with
   | some ts =>
     if ts.length > 0 then
       docTags.any (fun dt => dt.document_id == d.id && ts.contains dt.tag_id)
     else true
   | none => true)

/-- The `ORDER BY` clause of `searchDocuments`: title ascending, effective
date descending, or (for `relevance` and unset) `updated_at` descending. -/
def sortDocs (opts : SearchOptions) (l : List Doc) : List Doc :=
  match opts.sortBy with
  | some SortKey.title => l.insertionSort (fun a b => leString a.title b.title = true)
  | some SortKey.date =>
    l.insertionSort (fun a b => leString b.effective_date a.effective_date = true)
  | _ => l.insertionSort (fun a b => leString b.updated_at a.updated_at = true)

/-- `options.limit || 20`: `0` is falsy and replaced by 20; a negative
limit survives. -/
def effLimit (opts : SearchOptions) : Int :=
  match truthyInt opts.limit with
  | some l => l
  | none => 20

/-- `options.offset || 0`. -/
def effOffset (opts : SearchOptions) : Int :=
  match truthyInt opts.offset with
  | some o => o
  | none => 0

/-- SQLite's `LIMIT n`: a negative operand means no upper bound, otherwise
at most `n` rows are returned. -/
def applySqlLimit (n : Int) (l : List Doc) : List Doc :=
  if n < 0 then l else l.take n.toNat

/-- `searchDocuments`: filter by the assembled `WHERE` clauses, sort, then
apply `LIMIT ? OFFSET ?` — SQLite treats a negative `OFFSET` as 0 (hence
`Int.toNat`) and a negative `LIMIT` as unbounded.  (`SELECT DISTINCT`
collapses no rows here: the two `LEFT JOIN`s are on primary keys, so each
document yields one row.) -/
def searchDocuments (docs : List Doc) (docTags : List DocumentTag)
    (opts : SearchOptions) : List Doc :=
  applySqlLimit (effLimit opts)
    ((sortDocs opts (docs.filter (matchesOptions opts docTags))).drop
      (effOffset opts).toNat)

/-! ### The `POST /api/auth/login` handler -/

/-- The observable response of the login handler: HTTP status, and the
`session_id` cookie value when one is set.  `302` is the redirect issued by
`c.redirect('/')`. -/
structure LoginResponse where
  status : Nat
  sessionCookie : Option String
deriving DecidableEq

/-- The `POST /api/auth/login` handler: missing/empty email or password →
400; no row in `SELECT * FROM users WHERE email = ? AND status = 'active'` →
401; failed bcrypt comparison (abstracted as the oracle `verify password
hash`) → 401; otherwise create a session, set the cookie, redirect.  The
`last_login_at` update and the audit-log insert touch tables not modelled
here. -/
def loginHandler (verify : String → String → Bool) (users : List DbUser)
    (sessions : List Session) (now : Nat) (newSessionId : String)
    (email? : Option String) (password? : Option String) :
    LoginResponse × List Session :=
  match truthyStr email?, truthyStr password? with
  | some email, some password =>
    (match users.find? (fun u => u.email == email && u.status == "active") with
     | none => ({ status := 401, sessionCookie := none }, sessions)
     | some user =>
       if verify password user.password_hash then
         ({ status := 302, sessionCookie := some newSessionId },
          createSession sessions now newSessionId user.id)
       else ({ status := 401, sessionCookie := none }, sessions))
  | _, _ => ({ status := 400, sessionCookie := none }, sessions)

/-! ### Concrete fixtures used by witnesses and counterexamples -/

/-- A one-document fixture whose slug is `a`. -/
def docA : Doc :=
  { id := 1, title := "A", slug := "a", summary := none, content_type := "policy",
    status := "published", owner_id := 1, effective_date := "2024-01-01",
    updated_at := "2024-01-02", category_id := 1, business_unit_id := none,
    search_content := none }

/-- A draft document matching the default search filters. -/
def docDraft : Doc :=
  { id := 2, title := "Draft doc", slug := "draft-doc", summary := none,
    content_type := "policy", status := "draft", owner_id := 1,
    effective_date := "2024-02-01", updated_at := "2024-02-02", category_id := 1,
    business_unit_id := none, search_content := none }

/-- A published document matching the default search filters. -/
def docPublished : Doc :=
  { id := 3, title := "Published doc", slug := "published-doc", summary := none,
    content_type := "policy", status := "published", owner_id := 1,
    effective_date := "2024-01-01", updated_at := "2024-01-02", category_id := 1,
    business_unit_id := none, search_content := none }

/-- An archived document. -/
def docArchived : Doc :=
  { id := 4, title := "Archived doc", slug := "archived-doc", summary := none,
    content_type := "policy", status := "archived", owner_id := 1,
    effective_date := "2023-01-01", updated_at := "2023-01-02", category_id := 1,
    business_unit_id := none, search_content := none }

/-- A suspended user, fixture for the inactive-user session lookups. -/
def suspendedUser : DbUser :=
  { id := 1, email := "bob@example.com", name := "Bob", password_hash := "h",
    status := "suspended" }

/-- An active user fixture. -/
def activeUser : DbUser :=
  { id := 2, email := "admin@agewithcare.com", name := "Admin",
    password_hash := "hash-admin", status := "active" }

/-- A session fixture for user 1 expiring at instant 100. -/
def sessionS1 : Session :=
  { id := "s1", user_id := 1, expires_at := 100, last_activity := 0 }

/-- A session fixture for user 2 expiring at 01:00 UTC of day 0 (instant
3600000 = one hour in milliseconds). -/
def sessionS3 : Session :=
  { id := "s3", user_id := 2, expires_at := 3600000, last_activity := 0 }

/-! ## Helper lemmas -/

/-- Membership in the aggregated permission list amounts to membership in the
permission list of some role assigned to the user. -/
theorem mem_getUserPermissions {db : PermDb} {userId : Nat} {p : String} :
    p ∈ getUserPermissions db userId ↔
      ∃ r ∈ db.roles,
        (∃ ur ∈ db.user_roles, ur.user_id = userId ∧ ur.role_id = r.id) ∧
        p ∈ r.permissions := by
  simp only [getUserPermissions, List.mem_dedup, List.mem_flatMap, List.mem_filter,
    beq_iff_eq]
  constructor
  · rintro ⟨r, ⟨ur, ⟨hur, hu⟩, hr, hid⟩, hp⟩
    exact ⟨r, hr, ⟨ur, hur, hu, hid.symm⟩, hp⟩
  · rintro ⟨r, hr, ⟨ur, hur, hu, hid⟩, hp⟩
    exact ⟨r, ⟨ur, ⟨hur, hu⟩, hr, hid.symm⟩, hp⟩

/-! ## C1: permission evaluation -/

/-- C1.  `hasPermission db userId perm` is true iff some role assigned to
`userId` has `perm` in its permission list or carries the wildcard `*`; a
user with no role assignments, or whose assigned roles all have empty
permission lists, is denied every permission. -/
theorem hasPermission_correct (db : PermDb) (userId : Nat) (perm : String) :
    (hasPermission db userId perm = true ↔
      ∃ r ∈ db.roles,
        (∃ ur ∈ db.user_roles, ur.user_id = userId ∧ ur.role_id = r.id) ∧
        (perm ∈ r.permissions ∨ "*" ∈ r.permissions)) ∧
    ((∀ ur ∈ db.user_roles, ur.user_id ≠ userId) →
      hasPermission db userId perm = false) ∧
    ((∀ r ∈ db.roles,
        (∃ ur ∈ db.user_roles, ur.user_id = userId ∧ ur.role_id = r.id) →
        r.permissions = []) →
      hasPermission db userId perm = false) := by
  have hval : hasPermission db userId perm = true ↔
      "*" ∈ getUserPermissions db userId ∨ perm ∈ getUserPermissions db userId := by
    simp only [hasPermission]
    by_cases h : (getUserPermissions db userId).contains "*" = true
    · simp [h, List.elem_iff.mp h]
    · have hm : "*" ∉ getUserPermissions db userId := fun hmem =>
        h (List.elem_iff.mpr hmem)
      simp only [Bool.not_eq_true] at h
      simp [h, List.contains, List.elem_iff, hm]
  refine ⟨?_, ?_, ?_⟩
  · rw [hval]
    simp only [mem_getUserPermissions]
    constructor
    · rintro (⟨r, hr, hur, hp⟩ | ⟨r, hr, hur, hp⟩)
      · exact ⟨r, hr, hur, Or.inr hp⟩
      · exact ⟨r, hr, hur, Or.inl hp⟩
    · rintro ⟨r, hr, hur, hp | hp⟩
      · exact Or.inr ⟨r, hr, hur, hp⟩
      · exact Or.inl ⟨r, hr, hur, hp⟩
  · intro hnone
    rw [← Bool.not_eq_true, hval]
    rintro (h | h) <;>
      · obtain ⟨r, _, ⟨ur, hur, hu, _⟩, _⟩ := mem_getUserPermissions.mp h
        exact hnone ur hur hu
  · intro hempty
    rw [← Bool.not_eq_true, hval]
    rintro (h | h) <;>
      · obtain ⟨r, hr, hur, hp⟩ := mem_getUserPermissions.mp h
        rw [hempty r hr hur] at hp
        cases hp

/-- Witness for C1: a user with a role assignment whose role has an empty
permission list is denied, via the theorem's third conjunct. -/
theorem hasPermission_correct_witness :
    hasPermission ⟨[⟨1, "reader", []⟩], [⟨7, 1⟩]⟩ 7 "documents.read" = false :=
  (hasPermission_correct ⟨[⟨1, "reader", []⟩], [⟨7, 1⟩]⟩ 7 "documents.read").2.2
    (by decide)

/-! ## C6: slug generation -/

/-- Counterexample for C6 as stated: on the title `a--b` the implementation
returns `a-b`, while the claimed recipe (lower-case, strip non-word
characters, collapse whitespace runs to hyphens) leaves `a--b`: the
implementation additionally collapses runs of hyphens. -/
theorem generateSlug_recipe_counterexample :
    generateSlug "a--b" = "a-b" ∧ generateSlugDesc "a--b" = "a--b" ∧
      generateSlug "a--b" ≠ generateSlugDesc "a--b" := by decide

/-- C6 (amended).  `generateSlug` lower-cases, strips characters that are
neither word characters, whitespace nor hyphens, collapses whitespace runs
to hyphens, then collapses hyphen runs to a single hyphen and trims; in
particular `generateSlug "Consumer Rights Policy" =
"consumer-rights-policy"`. -/
theorem generateSlug_spec :
    generateSlug "Consumer Rights Policy" = "consumer-rights-policy" ∧
    ∀ title : String,
      generateSlug title =
        String.mk (trimChars (replaceRuns isHyphenChar '-' (generateSlugDesc title).data)) :=
  ⟨by decide, fun _ => rfl⟩

/-! ## C3, C8, C9: session lifecycle -/

/-- C3 is a code bug, demonstrated at a concrete input.  `createSession`
stores the expiry as `Date.toISOString()` text (`"...T...Z"`) while
`getSession` compares it byte-wise against `datetime('now')`
(`"YYYY-MM-DD HH:MM:SS"`); since `'T' > ' '`, the comparison stays true for
the whole UTC day of the expiry.  Concretely: session `s3` expires at 01:00
UTC of day 0 (instant 3600000), yet a lookup at 02:00 UTC the same day
(instant 7200000) — one hour after the stored expiry — still returns the
session, returns its active user and refreshes the session's last-activity
timestamp; only a lookup on the next UTC day (instant 90000000) returns
none. -/
theorem session_expiry_same_day_bug :
    sessionS3.expires_at < 7200000 ∧
    getSession [sessionS3] 7200000 "s3" = some sessionS3 ∧
    getUserFromSession [activeUser] [sessionS3] 7200000 "s3" =
      (some activeUser, updateSessionActivity [sessionS3] 7200000 "s3") ∧
    getUserFromSession [activeUser] [sessionS3] 90000000 "s3" = (none, [sessionS3]) := by
  decide

/-- C9.  When the session row exists and is unexpired but no user matching
it is active, `getUserFromSession` returns none and leaves the sessions
table — in particular the session's last-activity timestamp — unchanged. -/
theorem getUserFromSession_inactive (users : List DbUser) (sessions : List Session)
    (now : Nat) (sid : String) (s : Session)
    (hsess : getSession sessions now sid = some s)
    (husers : ∀ u ∈ users, u.id = s.user_id → u.status ≠ "active") :
    getUserFromSession users sessions now sid = (none, sessions) := by
  have hfind : users.find? (fun u => u.id == s.user_id && u.status == "active") = none := by
    rw [List.find?_eq_none]
    intro u hu
    simp only [Bool.and_eq_true, beq_iff_eq, not_and]
    intro h1 h2
    exact husers u hu h1 h2
  by_cases hid : (sid == "") = true
  · simp [getUserFromSession, hid]
  · simp only [Bool.not_eq_true] at hid
    simp [getUserFromSession, hid, hsess, hfind]

/-- Witness for C9: the suspended user's unexpired session yields no user
and an unchanged table. -/
theorem getUserFromSession_inactive_witness :
    getUserFromSession [suspendedUser] [sessionS1] 50 "s1" = (none, [sessionS1]) :=
  getUserFromSession_inactive [suspendedUser] [sessionS1] 50 "s1" sessionS1
    (by decide) (by decide)

/-- C8.  `createSession` appends one row whose expiry is exactly one hour
(`60 * 60 * 1000` ms) after creation time; `updateSessionActivity` preserves
the table's length and every row's `id`, `user_id` and `expires_at`; and the
table produced by a `getUserFromSession` lookup is either the unchanged
table or the result of `updateSessionActivity` — no lookup ever modifies an
expiry. -/
theorem session_expiry_fixed_frame (users : List DbUser) (sessions : List Session)
    (now : Nat) (sid : String) (uid : Nat) :
    (∃ ns, createSession sessions now sid uid = sessions ++ [ns] ∧
      ns.id = sid ∧ ns.user_id = uid ∧ ns.expires_at = now + 60 * 60 * 1000) ∧
    ((updateSessionActivity sessions now sid).length = sessions.length ∧
      ∀ i : Nat,
        (updateSessionActivity sessions now sid)[i]?.map Session.id =
            sessions[i]?.map Session.id ∧
        (updateSessionActivity sessions now sid)[i]?.map Session.user_id =
            sessions[i]?.map Session.user_id ∧
        (updateSessionActivity sessions now sid)[i]?.map Session.expires_at =
            sessions[i]?.map Session.expires_at) ∧
    ((getUserFromSession users sessions now sid).2 = sessions ∨
      (getUserFromSession users sessions now sid).2 =
        updateSessionActivity sessions now sid) := by
  refine ⟨⟨_, rfl, rfl, rfl, rfl⟩, ⟨by simp [updateSessionActivity], ?_⟩, ?_⟩
  · intro i
    simp only [updateSessionActivity, List.getElem?_map]
    cases h : sessions[i]? with
    | none => simp
    | some s =>
      refine ⟨?_, ?_, ?_⟩ <;> by_cases hc : s.id = sid <;> simp [hc]
  · by_cases hid : (sid == "") = true
    · left; simp [getUserFromSession, hid]
    · simp only [Bool.not_eq_true] at hid
      cases h2 : getSession sessions now sid with
      | none => left; simp [getUserFromSession, hid, h2]
      | some s =>
        cases h3 : users.find? (fun u => u.id == s.user_id && u.status == "active") with
        | none => left; simp [getUserFromSession, hid, h2, h3]
        | some u => right; simp [getUserFromSession, hid, h2, h3]

/-! ## C4, C10: search filtering and pagination -/

/-- Sorting a document list permutes it, so membership is unchanged. -/
theorem mem_sortDocs {opts : SearchOptions} {l : List Doc} {d : Doc} :
    d ∈ sortDocs opts l ↔ d ∈ l := by
  cases hk : opts.sortBy with
  | none => simp only [sortDocs, hk]; exact (List.perm_insertionSort _ _).mem_iff
  | some k =>
    cases k <;> simp only [sortDocs, hk] <;> exact (List.perm_insertionSort _ _).mem_iff

/-- Sorting preserves the length of a document list. -/
theorem length_sortDocs (opts : SearchOptions) (l : List Doc) :
    (sortDocs opts l).length = l.length := by
  cases hk : opts.sortBy with
  | none => simp only [sortDocs, hk]; exact (List.perm_insertionSort _ _).length_eq
  | some k =>
    cases k <;> simp only [sortDocs, hk] <;> exact (List.perm_insertionSort _ _).length_eq

/-- Membership in an SQL-limited list implies membership in the list. -/
theorem mem_of_mem_applySqlLimit {n : Int} {l : List Doc} {d : Doc}
    (h : d ∈ applySqlLimit n l) : d ∈ l := by
  rw [applySqlLimit] at h
  by_cases hn : n < 0
  · rwa [if_pos hn] at h
  · rw [if_neg hn] at h
    exact List.take_subset _ _ h

/-- A nonnegative SQL limit bounds the length of the result. -/
theorem length_applySqlLimit_le (n : Int) (hn : 0 ≤ n) (l : List Doc) :
    ((applySqlLimit n l).length : Int) ≤ n := by
  rw [applySqlLimit, if_neg (by omega)]
  have h := List.length_take_le n.toNat l
  omega

/-- Counterexample for C4 as stated: with `limit := 1`, the published
document matches all filters of a search with no explicit status and
`includeArchived` unset, yet does not appear in the result — pagination cut
it off. -/
theorem searchDocuments_default_counterexample :
    ({ limit := some 1 } : SearchOptions).status = none ∧
    ({ limit := some 1 } : SearchOptions).includeArchived = false ∧
    matchesOptions { limit := some 1 } [] docPublished = true ∧
    docPublished.status = "published" ∧
    docPublished ∉ searchDocuments [docDraft, docPublished] [] { limit := some 1 } := by
  decide

/-- C4 (amended).  A search whose options give no explicit status and leave
`includeArchived` unset never returns an archived document; and every
matching (hence non-archived) document appears in the result provided it
falls inside the pagination window — in particular whenever the offset is
unset and the limit is negative (unbounded) or at least the number of
matches. -/
theorem searchDocuments_default_excludes_archived (docs : List Doc)
    (docTags : List DocumentTag) (opts : SearchOptions)
    (hstatus : opts.status = none) (harch : opts.includeArchived = false) :
    (∀ d ∈ searchDocuments docs docTags opts, d.status ≠ "archived") ∧
    (effOffset opts = 0 →
      (effLimit opts < 0 ∨
        ((docs.filter (matchesOptions opts docTags)).length : Int) ≤ effLimit opts) →
      ∀ d ∈ docs, matchesOptions opts docTags d = true →
        d ∈ searchDocuments docs docTags opts) := by
  constructor
  · intro d hd
    have hd1 : d ∈ sortDocs opts (docs.filter (matchesOptions opts docTags)) :=
      List.drop_subset _ _ (mem_of_mem_applySqlLimit hd)
    have hd2 : matchesOptions opts docTags d = true :=
      (List.mem_filter.mp (mem_sortDocs.mp hd1)).2
    simp only [matchesOptions, hstatus, harch, truthyStr, Bool.and_eq_true] at hd2
    have := hd2.1.1.1.1.2
    simpa [bne_iff_ne] using this
  · intro hoff hlim d hd hm
    have hmem : d ∈ sortDocs opts (docs.filter (matchesOptions opts docTags)) :=
      mem_sortDocs.mpr (List.mem_filter.mpr ⟨hd, hm⟩)
    simp only [searchDocuments, hoff, Int.toNat_zero, List.drop_zero]
    rcases hlim with hneg | hle
    · simp only [applySqlLimit]
      rw [if_pos hneg]
      exact hmem
    · have hnn : ¬ effLimit opts < 0 := by omega
      simp only [applySqlLimit]
      rw [if_neg hnn]
      have hlen2 : (sortDocs opts (docs.filter (matchesOptions opts docTags))).length ≤
          (effLimit opts).toNat := by
        rw [length_sortDocs]
        omega
      rw [List.take_of_length_le hlen2]
      exact hmem

/-- Witness for C4 (amended): with default options on a three-document
table, the matching published document appears in the result. -/
theorem searchDocuments_default_excludes_archived_witness :
    docPublished ∈ searchDocuments [docDraft, docPublished, docArchived] [] {} :=
  (searchDocuments_default_excludes_archived [docDraft, docPublished, docArchived]
      [] {} rfl rfl).2 (by decide) (by decide) docPublished (by decide) (by decide)

/-- Counterexample for C10 as stated: with `limit := 0` (falsy in JS), the
`options.limit || 20` default kicks in and a row is returned, so the result
is not bounded by `options.limit`. -/
theorem searchDocuments_limit_counterexample :
    ({ limit := some 0 } : SearchOptions).limit = some 0 ∧
    (searchDocuments [docA] [] { limit := some 0 }).length = 1 := by decide

/-- C10 (amended).  `searchDocuments` returns at most `options.limit` rows
when that option is set and positive, and at most 20 rows when it is unset
or 0 (both falsy in JS, so `options.limit || 20` substitutes 20); when the
limit is set and negative, SQLite's `LIMIT` imposes no bound and the whole
remaining filtered list is returned.  Row `i` of the result is row
`(effOffset opts).toNat + i` of the filtered, sorted document list, so the
first `options.offset` matches are skipped (0 when the offset is unset,
zero or negative). -/
theorem searchDocuments_pagination (docs : List Doc) (docTags : List DocumentTag)
    (opts : SearchOptions) :
    (opts.limit = none → (searchDocuments docs docTags opts).length ≤ 20) ∧
    (opts.limit = some 0 → (searchDocuments docs docTags opts).length ≤ 20) ∧
    (∀ l : Int, opts.limit = some l → 0 < l →
      ((searchDocuments docs docTags opts).length : Int) ≤ l) ∧
    (∀ l : Int, opts.limit = some l → l < 0 →
      searchDocuments docs docTags opts =
        (sortDocs opts (docs.filter (matchesOptions opts docTags))).drop
          (effOffset opts).toNat) ∧
    (∀ i : Nat, effLimit opts < 0 ∨ (i : Int) < effLimit opts →
      (searchDocuments docs docTags opts)[i]? =
        (sortDocs opts
          (docs.filter (matchesOptions opts docTags)))[(effOffset opts).toNat + i]?) := by
  refine ⟨?_, ?_, ?_, ?_, ?_⟩
  · intro h
    have hL : effLimit opts = 20 := by simp [effLimit, truthyInt, h]
    have hb := length_applySqlLimit_le 20 (by omega)
      ((sortDocs opts (docs.filter (matchesOptions opts docTags))).drop
        (effOffset opts).toNat)
    simp only [searchDocuments, hL]
    omega
  · intro h
    have hL : effLimit opts = 20 := by simp [effLimit, truthyInt, h]
    have hb := length_applySqlLimit_le 20 (by omega)
      ((sortDocs opts (docs.filter (matchesOptions opts docTags))).drop
        (effOffset opts).toNat)
    simp only [searchDocuments, hL]
    omega
  · intro l h hpos
    have hl0 : l ≠ 0 := by omega
    have hL : effLimit opts = l := by simp [effLimit, truthyInt, h, hl0]
    have hb := length_applySqlLimit_le l (by omega)
      ((sortDocs opts (docs.filter (matchesOptions opts docTags))).drop
        (effOffset opts).toNat)
    simp only [searchDocuments, hL]
    exact hb
  · intro l h hneg
    have hl0 : l ≠ 0 := by omega
    have hL : effLimit opts = l := by simp [effLimit, truthyInt, h, hl0]
    simp only [searchDocuments, hL, applySqlLimit]
    rw [if_pos hneg]
  · intro i hi
    rcases hi with hneg | hlt
    · simp only [searchDocuments, applySqlLimit]
      rw [if_pos hneg, List.getElem?_drop]
    · have hnn : ¬ effLimit opts < 0 := by omega
      have hiN : i < (effLimit opts).toNat := by omega
      simp only [searchDocuments, applySqlLimit]
      rw [if_neg hnn, List.getElem?_take, if_pos hiN, List.getElem?_drop]

/-- Witness for C10 (amended): on a one-document table with default
options, row 0 of the search result is the document itself. -/
theorem searchDocuments_pagination_witness :
    (searchDocuments [docA] [] ({} : SearchOptions))[0]? = some docA :=
  ((searchDocuments_pagination [docA] [] {}).2.2.2.2 0 (by decide)).trans (by decide)

/-! ## C5: the login handler -/

/-- Counterexample for C5 as stated: a request with missing credentials is
answered with status 400, not the claimed 401 (no cookie is set either
way). -/
theorem login_missing_credentials_counterexample :
    (loginHandler (fun p h => p == h) [activeUser] [] 0 "sid" none none).1.status = 400 ∧
    (loginHandler (fun p h => p == h) [activeUser] [] 0 "sid" none none).1.status ≠ 401 := by
  decide

/-- C5 (amended).  Missing (or empty) email or password → 400 with no
session cookie; no active user with the given email, or a failed password
check → 401 with no cookie; correct email and password of an active user →
redirect (302) with the session cookie set and the session created. -/
theorem loginHandler_spec (verify : String → String → Bool) (users : List DbUser)
    (sessions : List Session) (now : Nat) (sid : String)
    (email? password? : Option String) :
    (truthyStr email? = none ∨ truthyStr password? = none →
      loginHandler verify users sessions now sid email? password? =
        ({ status := 400, sessionCookie := none }, sessions)) ∧
    (∀ email password, truthyStr email? = some email →
      truthyStr password? = some password →
      (users.find? (fun u => u.email == email && u.status == "active") = none →
        loginHandler verify users sessions now sid email? password? =
          ({ status := 401, sessionCookie := none }, sessions)) ∧
      (∀ u, users.find? (fun u => u.email == email && u.status == "active") = some u →
        (verify password u.password_hash = false →
          loginHandler verify users sessions now sid email? password? =
            ({ status := 401, sessionCookie := none }, sessions)) ∧
        (verify password u.password_hash = true →
          loginHandler verify users sessions now sid email? password? =
            ({ status := 302, sessionCookie := some sid },
             createSession sessions now sid u.id)))) := by
  constructor
  · intro h
    rcases h with h | h
    · cases hp : truthyStr password? <;> simp [loginHandler, h, hp]
    · cases he : truthyStr email? <;> simp [loginHandler, h, he]
  · intro email password he hp
    constructor
    · intro hf
      simp [loginHandler, he, hp, hf]
    · intro u hf
      constructor <;> intro hv <;> simp [loginHandler, he, hp, hf, hv]

/-- Witness for C5 (amended): the demo admin user logging in with the
correct password is redirected with the cookie set; the session is
created. -/
theorem loginHandler_spec_witness :
    loginHandler (fun p h => p == h) [activeUser] [] 0 "sid"
        (some "admin@agewithcare.com") (some "hash-admin") =
      ({ status := 302, sessionCookie := some "sid" },
       createSession [] 0 "sid" activeUser.id) :=
  ((((loginHandler_spec (fun p h => p == h) [activeUser] [] 0 "sid"
        (some "admin@agewithcare.com") (some "hash-admin")).2
      "admin@agewithcare.com" "hash-admin" (by decide) (by decide)).2
    activeUser (by decide)).2 (by decide))

/-! ## C2, C7: slug uniqueness

The probe loop of `ensureUniqueSlug` terminates on every finite documents
table because its candidate slugs are pairwise distinct: we first show that
`Nat.repr` is injective (via `Nat.digits`), then a pigeonhole argument. -/

/-- The accumulator of `Nat.toDigitsCore` can be split off. -/
theorem toDigitsCore_append (b : Nat) :
    ∀ (f n : Nat) (ds : List Char),
      Nat.toDigitsCore b f n ds = Nat.toDigitsCore b f n [] ++ ds := by
  intro f
  induction f with
  | zero => intro n ds; rfl
  | succ f ih =>
    intro n ds
    simp only [Nat.toDigitsCore]
    by_cases h : n / b = 0
    · simp [h]
    · simp only [h, if_false]
      rw [ih (n / b) (Nat.digitChar (n % b) :: ds), ih (n / b) [Nat.digitChar (n % b)]]
      simp

/-- With sufficient fuel, `Nat.toDigitsCore` produces the reversed decimal
digit characters of its argument. -/
theorem toDigitsCore_eq_digitsRepr :
    ∀ (n f : Nat), n < f → Nat.toDigitsCore 10 f n [] = digitsRepr n := by
  intro n
  induction n using Nat.strong_induction_on with
  | _ n ih =>
    intro f hf
    cases f with
    | zero => omega
    | succ f =>
      by_cases hn : n = 0
      · subst hn; rfl
      · simp only [Nat.toDigitsCore]
        by_cases h : n / 10 = 0
        · simp only [h, if_true]
          rw [digitsRepr, if_neg hn,
            Nat.digits_def' (by norm_num) (Nat.pos_of_ne_zero hn), h, Nat.digits_zero]
          simp
        · rw [if_neg h]
          have hlt : n / 10 < n := Nat.div_lt_self (Nat.pos_of_ne_zero hn) (by norm_num)
          have hrhs : digitsRepr n = digitsRepr (n / 10) ++ [Nat.digitChar (n % 10)] := by
            rw [digitsRepr, if_neg hn,
              Nat.digits_def' (by norm_num) (Nat.pos_of_ne_zero hn)]
            rw [digitsRepr, if_neg h]
            simp
          rw [toDigitsCore_append, ih (n / 10) hlt f (by omega), hrhs]

/-- The characters of `Nat.repr n` are the reversed decimal digits of `n`. -/
theorem repr_data (n : Nat) : (Nat.repr n).data = digitsRepr n := by
  show (Nat.toDigitsCore 10 (n + 1) n []).asString.data = digitsRepr n
  rw [toDigitsCore_eq_digitsRepr n (n + 1) (Nat.lt_succ_self n)]
  rfl

/-- `Nat.digitChar` is injective below the base 10. -/
theorem digitChar_injOn :
    ∀ a, a < 10 → ∀ b, b < 10 → Nat.digitChar a = Nat.digitChar b → a = b := by decide

/-- Mapping `Nat.digitChar` over digit lists (entries `< 10`) is injective. -/
theorem map_digitChar_inj :
    ∀ (l1 : List Nat), (∀ x ∈ l1, x < 10) → ∀ (l2 : List Nat), (∀ x ∈ l2, x < 10) →
      l1.map Nat.digitChar = l2.map Nat.digitChar → l1 = l2 := by
  intro l1
  induction l1 with
  | nil =>
    intro _ l2 _ h
    cases l2 with
    | nil => rfl
    | cons b bs => simp at h
  | cons a as ih =>
    intro h1 l2 h2 heq
    cases l2 with
    | nil => simp at heq
    | cons b bs =>
      simp only [List.map_cons, List.cons.injEq] at heq
      have hab : a = b := digitChar_injOn a (h1 a (List.mem_cons_self a as))
        b (h2 b (List.mem_cons_self b bs)) heq.1
      subst hab
      rw [ih (fun x hx => h1 x (List.mem_cons_of_mem _ hx)) bs
        (fun x hx => h2 x (List.mem_cons_of_mem _ hx)) heq.2]

/-- The decimal character rendering of a natural number is injective. -/
theorem digitsRepr_inj : ∀ {m n : Nat}, digitsRepr m = digitsRepr n → m = n := by
  have key : ∀ n, n ≠ 0 → digitsRepr n = ['0'] → False := by
    intro n hn h
    rw [digitsRepr, if_neg hn] at h
    have h2 : (Nat.digits 10 n).map Nat.digitChar = ['0'] := by
      have := congrArg List.reverse h
      simpa using this
    have h3 : Nat.digits 10 n = [0] := by
      apply map_digitChar_inj _ (fun x hx => Nat.digits_lt_base (by norm_num) hx) [0]
        (by simp)
      simpa using h2
    have h4 := Nat.ofDigits_digits 10 n
    rw [h3] at h4
    simp [Nat.ofDigits] at h4
    exact hn h4.symm
  intro m n h
  by_cases hm : m = 0 <;> by_cases hn : n = 0
  · omega
  · subst hm; exact (key n hn h.symm).elim
  · subst hn; exact (key m hm h).elim
  · rw [digitsRepr, if_neg hm, digitsRepr, if_neg hn, List.reverse_inj] at h
    have hdig := map_digitChar_inj _
      (fun x hx => Nat.digits_lt_base (by norm_num) hx) _
      (fun x hx => Nat.digits_lt_base (by norm_num) hx) h
    have hm' := Nat.ofDigits_digits 10 m
    rw [hdig] at hm'
    exact hm'.symm.trans (Nat.ofDigits_digits 10 n)

/-- `Nat.repr` is injective (at the level of character data). -/
theorem nat_repr_data_inj {m n : Nat} (h : (Nat.repr m).data = (Nat.repr n).data) :
    m = n :=
  digitsRepr_inj ((repr_data m).symm.trans (h.trans (repr_data n)))

/-- The candidate slugs probed by `ensureUniqueSlug` are pairwise distinct. -/
theorem slugCandidate_injective (base : String) :
    Function.Injective (slugCandidate base) := by
  intro i j h
  rcases i with _ | i <;> rcases j with _ | j
  · rfl
  · exfalso
    have hlen := congrArg (fun s => s.data.length) h
    simp only [slugCandidate, String.data_append, List.length_append,
      List.length_singleton] at hlen
    omega
  · exfalso
    have hlen := congrArg (fun s => s.data.length) h
    simp only [slugCandidate, String.data_append, List.length_append,
      List.length_singleton] at hlen
    omega
  · have hd := congrArg String.data h
    simp only [slugCandidate, String.data_append] at hd
    have h2 := List.append_cancel_left hd
    have := nat_repr_data_inj h2
    omega

/-- A taken slug is the slug of some document. -/
theorem slugTaken_mem {docs : List Doc} {s : String} {docId : Option Nat}
    (h : slugTaken docs s docId = true) : s ∈ docs.map Doc.slug := by
  rw [slugTaken, List.any_eq_true] at h
  obtain ⟨d, hd, hp⟩ := h
  rw [Bool.and_eq_true] at hp
  have hds : d.slug = s := by simpa using hp.1
  rw [← hds]
  exact List.mem_map_of_mem Doc.slug hd

/-- Pigeonhole: if the candidates `0..n` are all taken, the table holds more
than `n` documents. -/
theorem taken_candidates_bound (docs : List Doc) (base : String)
    (docId : Option Nat) (n : Nat)
    (h : ∀ i, i ≤ n → slugTaken docs (slugCandidate base i) docId = true) :
    n < docs.length := by
  have hmem : ∀ i : Fin (n + 1), slugCandidate base i ∈ (docs.map Doc.slug).toFinset :=
    fun i => List.mem_toFinset.mpr (slugTaken_mem (h i (Nat.lt_succ_iff.mp i.isLt)))
  have hsub : Finset.image (fun i : Fin (n + 1) => slugCandidate base i) Finset.univ ⊆
      (docs.map Doc.slug).toFinset :=
    Finset.image_subset_iff.mpr (fun i _ => hmem i)
  have hcard := Finset.card_le_card hsub
  rw [Finset.card_image_of_injective _
      (fun i j hij => Fin.ext (slugCandidate_injective base hij)),
    Finset.card_univ, Fintype.card_fin] at hcard
  have hle := (docs.map Doc.slug).toFinset_card_le
  rw [List.length_map] at hle
  omega

/-- If the fuelled loop fails, every probed candidate was taken. -/
theorem ensureUniqueSlugAux_none {docs : List Doc} {base : String}
    {docId : Option Nat} :
    ∀ fuel k, ensureUniqueSlugAux docs base docId fuel k = none →
      ∀ i, i < fuel → slugTaken docs (slugCandidate base (k + i)) docId = true := by
  intro fuel
  induction fuel with
  | zero => intro k _ i hi; omega
  | succ fuel ih =>
    intro k h i hi
    simp only [ensureUniqueSlugAux] at h
    by_cases ht : slugTaken docs (slugCandidate base k) docId = true
    · rw [if_pos ht] at h
      cases i with
      | zero => simpa using ht
      | succ i' =>
        have heq : k + (i' + 1) = (k + 1) + i' := by omega
        rw [heq]
        exact ih (k + 1) h i' (by omega)
    · rw [if_neg ht] at h
      cases h

/-- Whatever slug the fuelled loop returns is not taken. -/
theorem ensureUniqueSlugAux_some_not_taken {docs : List Doc} {base : String}
    {docId : Option Nat} :
    ∀ fuel k s, ensureUniqueSlugAux docs base docId fuel k = some s →
      slugTaken docs s docId = false := by
  intro fuel
  induction fuel with
  | zero => intro k s h; simp [ensureUniqueSlugAux] at h
  | succ fuel ih =>
    intro k s h
    simp only [ensureUniqueSlugAux] at h
    by_cases ht : slugTaken docs (slugCandidate base k) docId = true
    · rw [if_pos ht] at h
      exact ih (k + 1) s h
    · rw [if_neg ht] at h
      obtain rfl : slugCandidate base k = s := by simpa using h
      simpa using ht

/-- On a finite documents table the probe loop always succeeds: some
candidate among the first `docs.length + 1` is free. -/
theorem ensureUniqueSlug_success (docs : List Doc) (base : String)
    (docId : Option Nat) : ∃ s, ensureUniqueSlug docs base docId = some s := by
  cases h : ensureUniqueSlug docs base docId with
  | some s => exact ⟨s, rfl⟩
  | none =>
    exfalso
    have hall := ensureUniqueSlugAux_none (docs.length + 1) 0 h
    have hbound := taken_candidates_bound docs base docId docs.length
      (fun i hi => by simpa using hall i (by omega))
    omega

/-- The fuelled loop, started below the first free candidate with enough
fuel to reach it, returns exactly that candidate. -/
theorem ensureUniqueSlugAux_first_free {docs : List Doc} {base : String}
    {docId : Option Nat} {m : Nat}
    (hfree : slugTaken docs (slugCandidate base m) docId = false) :
    ∀ fuel k, m < k + fuel → k ≤ m →
      (∀ j, k ≤ j → j < m → slugTaken docs (slugCandidate base j) docId = true) →
      ensureUniqueSlugAux docs base docId fuel k = some (slugCandidate base m) := by
  intro fuel
  induction fuel with
  | zero => intro k h1 h2 _; omega
  | succ fuel ih =>
    intro k h1 h2 h3
    simp only [ensureUniqueSlugAux]
    by_cases hk : k = m
    · subst hk
      rw [if_neg (by simp [hfree])]
    · have hkm : k < m := by omega
      rw [if_pos (h3 k le_rfl hkm)]
      exact ih (k + 1) (by omega) (by omega) (fun j hj1 hj2 => h3 j (by omega) hj2)

/-- C7.  `ensureUniqueSlug` probes `baseSlug`, `baseSlug-1`, `baseSlug-2`, …
sequentially: when every candidate below `m` is taken and candidate `m` is
free, the loop terminates with exactly candidate `m` — the first free
candidate of the sequence. -/
theorem ensureUniqueSlug_first_free (docs : List Doc) (base : String)
    (docId : Option Nat) (m : Nat)
    (hall : ∀ j, j < m → slugTaken docs (slugCandidate base j) docId = true)
    (hfree : slugTaken docs (slugCandidate base m) docId = false) :
    ensureUniqueSlug docs base docId = some (slugCandidate base m) := by
  have hm : m ≤ docs.length := by
    by_contra hgt
    push_neg at hgt
    have := taken_candidates_bound docs base docId docs.length
      (fun i hi => hall i (by omega))
    omega
  show ensureUniqueSlugAux docs base docId (docs.length + 1) 0 = _
  exact ensureUniqueSlugAux_first_free hfree (docs.length + 1) 0 (by omega) (by omega)
    (fun j _ hj => hall j hj)

/-- Witness for C7: when only the base slug `a` is taken, the result is
`a-1`. -/
theorem ensureUniqueSlug_first_free_witness :
    ensureUniqueSlug [docA] "a" none = some "a-1" :=
  (ensureUniqueSlug_first_free [docA] "a" none 1 (by decide) (by decide)).trans
    (by decide)

/-- C2.  `ensureUniqueSlug` always returns a slug not present in the
documents table (excluding the document whose id is the supplied
`documentId`), and it is idempotent: run again on its own result it returns
that result unchanged. -/
theorem ensureUniqueSlug_unique_idempotent (docs : List Doc) (base : String)
    (docId : Option Nat) :
    ∃ s, ensureUniqueSlug docs base docId = some s ∧
      slugTaken docs s docId = false ∧
      (∀ d ∈ docs, d.slug = s → docId = some d.id) ∧
      ensureUniqueSlug docs s docId = some s := by
  obtain ⟨s, hs⟩ := ensureUniqueSlug_success docs base docId
  have hfree : slugTaken docs s docId = false :=
    ensureUniqueSlugAux_some_not_taken (docs.length + 1) 0 s hs
  refine ⟨s, hs, hfree, ?_, ?_⟩
  · intro d hd hslug
    by_contra hne
    have htaken : slugTaken docs s docId = true := by
      rw [slugTaken, List.any_eq_true]
      refine ⟨d, hd, ?_⟩
      rw [Bool.and_eq_true]
      refine ⟨by simpa using hslug, ?_⟩
      cases docId with
      | none => rfl
      | some i =>
        simp only [bne_iff_ne, ne_eq]
        intro he
        exact hne (by rw [he])
    rw [htaken] at hfree
    cases hfree
  · show ensureUniqueSlugAux docs s docId (docs.length + 1) 0 = some s
    have h0 : slugCandidate s 0 = s := rfl
    simp [ensureUniqueSlugAux, h0, hfree]

/-- Witness for C2: the theorem evaluated on the one-document fixture. -/
theorem ensureUniqueSlug_unique_idempotent_witness :
    ∃ s, ensureUniqueSlug [docA] "a" none = some s ∧
      slugTaken [docA] s none = false ∧
      (∀ d ∈ [docA], d.slug = s → (none : Option Nat) = some d.id) ∧
      ensureUniqueSlug [docA] s none = some s :=
  ensureUniqueSlug_unique_idempotent [docA] "a" none

end Wiki
